import Mathlib

/-!
# Verification of the cloud-cover dataset pipeline

A shallow embedding of `generate_dataset_script.py`, together with proofs of
the specified properties of its components: the timestamp parser
(`_parse_meteoblue_datetime` / `represents_int`), the artifact locator
(`_sky_image_filename`), the feature computer (`_cloud_cover_from_file`),
the acquisition trigger (`_ensure_images_downloaded`), the date-range
expansion loop and the record-merger row loop of `main`.

Modelling conventions:
* Python strings are `List Char` (`Str`); the embedding restricts digit and
  whitespace recognition to ASCII, matching the feed's character set.
* Python `datetime.date` / `datetime.datetime` are `CalendarDate` /
  `CalendarDateTime` over `Nat` fields; Python's representable range
  (year 1 to 9999) is expressed by `validDate`, and the `OverflowError`
  raised by date arithmetic past 9999-12-31 is modelled by `Option`
  (`nextDayO`, `addDays`, `addMinutes`) and `Except` results.
* The external image pipeline (`load_and_trim`, rb-ratio, cover percentage —
  the `cloud_cover` module, an out-of-scope collaborator) is an abstract
  record of fallible functions `ImageFS`; floats are modelled by `ℚ`.
* The acquisition collaborator (`download_sky_camera_images`) is an abstract
  function producing the new directory listing.
-/

namespace CloudPred

/-- Python strings, modelled as lists of characters. -/
abbrev Str := List Char

/-! ## ASCII digit utilities (model of `str` digits, `int()` and `%`-formatting) -/

/-- The decimal value of an ASCII digit character, `none` for any other
character.  This is the digit recognition used by CPython's `strptime`
(restricted to ASCII) and by `int()`. -/
def digitVal? (c : Char) : Option Nat :=
  if c = '0' then some 0 else if c = '1' then some 1 else if c = '2' then some 2
  else if c = '3' then some 3 else if c = '4' then some 4 else if c = '5' then some 5
  else if c = '6' then some 6 else if c = '7' then some 7 else if c = '8' then some 8
  else if c = '9' then some 9 else none

/-- Whether `c` is an ASCII decimal digit. -/
def isDigitChar (c : Char) : Bool := (digitVal? c).isSome

/-- Fuel-driven accumulator loop producing the decimal digits of `n`
(most significant first), prepended to `acc`. -/
def natDigitsGo : Nat → Nat → List Char → List Char
  | 0, _, acc => acc
  | fuel + 1, n, acc =>
    if n < 10 then Nat.digitChar n :: acc
    else natDigitsGo fuel (n / 10) (Nat.digitChar (n % 10) :: acc)

/-- The decimal digit characters of `n`, most significant first
(`natDigits 0 = ['0']`).  Fuel `n + 1` always suffices since `n / 10 < n`. -/
def natDigits (n : Nat) : Str := natDigitsGo (n + 1) n []

/-- Decimal representation of `n` zero-padded on the left to width at least
`w` — the model of CPython's `%0wd` (as used by `strftime` directives). -/
def pad (w n : Nat) : Str :=
  List.replicate (w - (natDigits n).length) '0' ++ natDigits n

/-! ## Calendar dates (model of `datetime.date`) -/

/-- A calendar date: the fields of a Python `datetime.date`. -/
structure CalendarDate where
  year : Nat
  month : Nat
  day : Nat
deriving DecidableEq

/-- Gregorian leap year rule (as implemented by Python's `datetime`). -/
def isLeapYear (y : Nat) : Bool :=
  y % 4 = 0 && (y % 100 != 0 || y % 400 = 0)

/-- Number of days in a month of the Gregorian calendar (0 for an invalid
month number, which Python's `datetime` can never hold). -/
def daysInMonth (y m : Nat) : Nat :=
  if m = 2 then (if isLeapYear y then 29 else 28)
  else if m = 4 ∨ m = 6 ∨ m = 9 ∨ m = 11 then 30
  else if 1 ≤ m ∧ m ≤ 12 then 31
  else 0

/-- The invariant of a Python `datetime.date`: its constructor rejects
anything outside year 1–9999 or outside the month's day count. -/
def validDate (d : CalendarDate) : Prop :=
  1 ≤ d.year ∧ d.year ≤ 9999 ∧ 1 ≤ d.month ∧ d.month ≤ 12 ∧
    1 ≤ d.day ∧ d.day ≤ daysInMonth d.year d.month

instance (d : CalendarDate) : Decidable (validDate d) := by
  unfold validDate; infer_instance

/-- Python's `date.max`, the largest representable date. -/
def maxDate : CalendarDate := ⟨9999, 12, 31⟩

/-- Python `date` comparison (`<=`); dates compare by ordinal, which on the
fields is lexicographic order. -/
def dateLE (a b : CalendarDate) : Prop :=
  a.year < b.year ∨ (a.year = b.year ∧
    (a.month < b.month ∨ (a.month = b.month ∧ a.day ≤ b.day)))

instance (a b : CalendarDate) : Decidable (dateLE a b) := by
  unfold dateLE; infer_instance

/-- Strict date comparison (`<`). -/
def dateLT (a b : CalendarDate) : Prop :=
  a.year < b.year ∨ (a.year = b.year ∧
    (a.month < b.month ∨ (a.month = b.month ∧ a.day < b.day)))

instance (a b : CalendarDate) : Decidable (dateLT a b) := by
  unfold dateLT; infer_instance

/-- Successor date, ignoring the year-9999 cap (the pure calendar rule). -/
def nextDay (d : CalendarDate) : CalendarDate :=
  if d.day < daysInMonth d.year d.month then ⟨d.year, d.month, d.day + 1⟩
  else if d.month < 12 then ⟨d.year, d.month + 1, 1⟩
  else ⟨d.year + 1, 1, 1⟩

/-- Model of `d + timedelta(days=1)` in Python: the successor date, or `none` for the
`OverflowError` raised when stepping past `date.max`. -/
def nextDayO (d : CalendarDate) : Option CalendarDate :=
  if d = maxDate then none else some (nextDay d)

/-- Measure used to show the date-range loop terminates: bounded above,
strictly decreasing along `nextDay` below `fin`. -/
def rdMeasure (fin cur : CalendarDate) : Nat :=
  (fin.year + 1 - cur.year) * 600 + (13 - min cur.month 13) * 40 +
    (40 - min cur.day 40)

theorem daysInMonth_le31 (y m : Nat) : daysInMonth y m ≤ 31 := by
  unfold daysInMonth; split_ifs <;> omega

theorem daysInMonth_pos (y m : Nat) (h1 : 1 ≤ m) (h2 : m ≤ 12) :
    1 ≤ daysInMonth y m := by
  unfold daysInMonth; split_ifs <;> omega

theorem rdMeasure_next (fin cur : CalendarDate) (h : dateLE cur fin) :
    rdMeasure fin (nextDay cur) < rdMeasure fin cur := by
  have hy : cur.year ≤ fin.year := by
    rcases h with h | ⟨h, -⟩ <;> omega
  have h31 := daysInMonth_le31 cur.year cur.month
  unfold nextDay rdMeasure
  split_ifs with h1 h2 <;> simp only [] <;> omega

/-- The inclusive date-range loop of `main` (lines 78–84):
`while cur <= end_d: dates.append(cur); cur += delta`.
The `+= delta` raises `OverflowError` at `date.max`, which aborts the run and
discards the list; this is the `none` result. -/
def rangeDates (cur fin : CalendarDate) : Option (List CalendarDate) :=
  if h : dateLE cur fin then
    match hnext : nextDayO cur with
    | none => none
    | some nxt => (rangeDates nxt fin).map (fun l => cur :: l)
  else some []
termination_by rdMeasure fin cur
decreasing_by
  simp only [nextDayO] at hnext
  split at hnext
  · exact absurd hnext (by simp)
  · cases hnext
    exact rdMeasure_next fin cur h

/-! ## Calendar datetimes (model of `datetime.datetime`, naive, to the minute) -/

/-- A calendar datetime: the fields of a naive Python `datetime.datetime`
that this pipeline uses (seconds and finer are always zero here). -/
structure CalendarDateTime where
  year : Nat
  month : Nat
  day : Nat
  hour : Nat
  minute : Nat
deriving DecidableEq

/-- The date part of a datetime (`dt.date()`). -/
def CalendarDateTime.date (dt : CalendarDateTime) : CalendarDate :=
  ⟨dt.year, dt.month, dt.day⟩

/-- Model of `d + timedelta(days=k)`; `none` models the `OverflowError` past
`date.max`. -/
def addDays (d : CalendarDate) : Nat → Option CalendarDate
  | 0 => some d
  | k + 1 => (nextDayO d).bind (fun n => addDays n k)

/-- Model of `dt + timedelta(minutes=m)` for `m ≥ 0`: normalize minutes into hours and
days exactly as Python's `timedelta` addition does; `none` models the
`OverflowError` past `datetime.max`. -/
def addMinutes (dt : CalendarDateTime) (m : Nat) : Option CalendarDateTime :=
  let total := dt.minute + m
  let th := dt.hour + total / 60
  (addDays dt.date (th / 24)).map
    (fun d => ⟨d.year, d.month, d.day, th % 24, total % 60⟩)

/-! ## `strftime` (the format directives this script uses) -/

/-- A `strftime` format unit: a literal character or one of the zero-padded
numeric directives used by the script. -/
inductive FmtDir where
  | lit (c : Char)
  | Y
  | m
  | d
  | H
  | M

/-- The expansion of one `strftime` directive.  `%m`, `%d`, `%H`, `%M` are
zero-padded to width 2 (C standard), but CPython delegates `%Y` to the
platform's `strftime`, which on glibc prints the year unpadded — year 999
formats as `999`, not `0999`. -/
def fmtField (dt : CalendarDateTime) : FmtDir → Str
  | .lit c => [c]
  | .Y => natDigits dt.year
  | .m => pad 2 dt.month
  | .d => pad 2 dt.day
  | .H => pad 2 dt.hour
  | .M => pad 2 dt.minute

/-- Model of `dt.strftime(f)`: concatenate the expansions of the directives. -/
def strftime (dt : CalendarDateTime) (f : List FmtDir) : Str :=
  (f.map (fmtField dt)).flatten

/-! ## `represents_int` (lines 135–140): does `int(s)` succeed? -/

/-- ASCII whitespace stripped by Python's `int()` (space, tab, newline,
vertical tab, form feed, carriage return). -/
def isPySpace (c : Char) : Bool :=
  c = ' ' || c = '\t' || c = '\n' || c = Char.ofNat 11 || c = Char.ofNat 12 ||
    c = '\r'

/-- Model of `s.strip()` for the whitespace `int()` ignores on both ends. -/
def pyStrip (s : Str) : Str :=
  ((s.dropWhile isPySpace).reverse.dropWhile isPySpace).reverse

/-- Drop one optional leading sign, as `int()` allows. -/
def dropSign (t : Str) : Str :=
  match t with
  | [] => []
  | c :: r => if c = '+' ∨ c = '-' then r else c :: r

/-- Tail of Python's integer-literal digit grammar
`digit (["_"] digit)*`: after the first digit, digits with single
underscores allowed only between digits. -/
def digitsTail : Str → Bool
  | [] => true
  | c :: r =>
    if c = '_' then
      match r with
      | [] => false
      | c2 :: r2 => isDigitChar c2 && digitsTail r2
    else isDigitChar c && digitsTail r

/-- Whether `int(s)` succeeds for a `str` argument: optional whitespace,
optional sign, then a nonempty underscore-grouped digit run. -/
def int_ok (s : Str) : Bool :=
  match dropSign (pyStrip s) with
  | [] => false
  | c :: r => if c = '_' then false else isDigitChar c && digitsTail r

/-- Model of `represents_int` (lines 135–140): `try: int(s); return True
except ValueError: return False`. -/
def represents_int (s : Str) : Bool := int_ok s

/-! ## `strptime` for the fixed format `"%Y%m%dT%HM"` on a 13-character slice

`datetime.strptime(cell[:13], "%Y%m%dT%H%M")` is always applied to a string
of exactly 13 characters.  CPython's matcher lets `%m`, `%d`, `%H`, `%M`
each consume 1 or 2 digits and `%Y` exactly 4, and then rejects the parse
unless the whole string was consumed — `4 + |m| + |d| + 1 + |H| + |M| = 13`
forces every two-field to exactly 2 digits, so on 13-character input the
format is rigid: `YYYYMMDDTHHMM`.  The two-digit regex classes make the
field ranges `01–12`, `01–31`, `00–23`, `00–59`, and the `datetime`
constructor additionally rejects year 0 and a day beyond the month's
length.  CPython compiles the format regex with `re.IGNORECASE`, so the
literal separator matches `'T'` and `'t'` alike. -/

/-- The strict parse of a 13-character string as `YYYYMMDDTHHMM`, `none` for
the `ValueError` on any mismatch (wrong length, non-digit, a separator
other than `'T'`/`'t'`, out-of-range field, invalid day-of-month,
year 0). -/
def strptime13 (t : Str) : Option CalendarDateTime :=
  match t with
  | [y1, y2, y3, y4, m1, m2, d1, d2, sep, h1, h2, n1, n2] =>
    if sep = 'T' ∨ sep = 't' then
      match digitVal? y1, digitVal? y2, digitVal? y3, digitVal? y4,
          digitVal? m1, digitVal? m2, digitVal? d1, digitVal? d2,
          digitVal? h1, digitVal? h2, digitVal? n1, digitVal? n2 with
      | some a1, some a2, some a3, some a4, some b1, some b2, some c1,
          some c2, some e1, some e2, some f1, some f2 =>
        if 1 ≤ a1 * 1000 + a2 * 100 + a3 * 10 + a4 ∧ 1 ≤ b1 * 10 + b2 ∧
            b1 * 10 + b2 ≤ 12 ∧ 1 ≤ c1 * 10 + c2 ∧
            c1 * 10 + c2 ≤ daysInMonth (a1 * 1000 + a2 * 100 + a3 * 10 + a4)
              (b1 * 10 + b2) ∧
            e1 * 10 + e2 ≤ 23 ∧ f1 * 10 + f2 ≤ 59 then
          some ⟨a1 * 1000 + a2 * 100 + a3 * 10 + a4, b1 * 10 + b2,
            c1 * 10 + c2, e1 * 10 + e2, f1 * 10 + f2⟩
        else none
      | _, _, _, _, _, _, _, _, _, _, _, _ => none
    else none
  | _ => none

/-- Model of `_parse_meteoblue_datetime` (lines 15–30): reject empty or short cells,
pre-filter the first 8 characters with `represents_int`, then strictly parse
the first 13 characters; every failure is `None`. -/
def parse_meteoblue_datetime (cell : Str) : Option CalendarDateTime :=
  if cell = [] ∨ cell.length < 13 then none
  else if ¬ represents_int (cell.take 8) then none
  else strptime13 (cell.take 13)

/-! ## The artifact locator `_sky_image_filename` (lines 33–39) -/

/-- Model of `_sky_image_filename`: format the datetime with the hyphenated
directive string, then append the literal suffix. -/
def sky_image_filename (dt : CalendarDateTime) : Str :=
  strftime dt [.Y, .lit '-', .m, .lit '-', .d, .lit '-', .H, .lit '-', .M] ++
    "-0.jpg".data

/-- Modelled from the spec (§4.3, §8): the filename the Artifact Locator is
claimed to produce — the zero-padded hyphen-joined `YYYY-MM-DD-HH-MM` of the
datetime's fields followed by the literal `-0.jpg`.  Used only to compare
the code's `sky_image_filename` against the spec's wording. -/
def artifactNameSpec (dt : CalendarDateTime) : Str :=
  pad 4 dt.year ++ '-' :: pad 2 dt.month ++ '-' :: pad 2 dt.day ++
    '-' :: pad 2 dt.hour ++ '-' :: pad 2 dt.minute ++ "-0.jpg".data

/-! ## The feature computer `_cloud_cover_from_file` (lines 42–51) -/

/-- The filesystem and the external image pipeline, abstracted: `pathExists`
is `os.path.exists`; the three stages are the `cloud_cover` collaborator's
functions, each of which may raise (`Except.error`).  `E`, `Img`, `RB` are
the collaborator's exception, image and ratio types.  `float()` on the
final numeric result is the identity on the `ℚ` model. -/
structure ImageFS (E Img RB : Type) where
  pathExists : Str → Bool
  load_and_trim : Str → Except E Img
  process_image_rb : Img → Except E RB
  calculate_cloud_cover : RB → Except E ℚ

/-- Model of `_cloud_cover_from_file`: `None` for a missing path; otherwise run the
three pipeline stages under a catch-all `except Exception` that converts any
stage's failure into `None`. -/
def cloud_cover_from_file {E Img RB : Type} (fs : ImageFS E Img RB)
    (path : Str) : Option ℚ :=
  if fs.pathExists path then
    match fs.load_and_trim path with
    | .error _ => none
    | .ok trimmed =>
      match fs.process_image_rb trimmed with
      | .error _ => none
      | .ok rb =>
        match fs.calculate_cloud_cover rb with
        | .error _ => none
        | .ok v => some v
  else none

/-! ## The acquisition trigger `_ensure_images_downloaded` (lines 54–68) -/

/-- The state of the image directory: whether `SKY_IMAGE_DIR` exists and, if
so, its listing (a missing directory lists as nothing). -/
structure DirState where
  dirExists : Bool
  files : List Str
deriving DecidableEq

/-- Model of `name.lower().endswith(".jpg")` — the recognizer for an image file
(ASCII lowering, as in the feed's character set). -/
def isJpgName (name : Str) : Bool :=
  ".jpg".data.isSuffixOf (name.map Char.toLower)

/-- Model of `d.isoformat()`: `YYYY-MM-DD`. -/
def isoformatDate (d : CalendarDate) : Str :=
  pad 4 d.year ++ '-' :: pad 2 d.month ++ '-' :: pad 2 d.day

/-- Model of `_ensure_images_downloaded`: `os.makedirs(..., exist_ok=True)`, then
skip acquisition when the listing already has a recognized image, else call
the collaborator.  `download` abstracts `download_sky_camera_images` (an
out-of-scope collaborator) as the listing it leaves in the directory; the
second component counts how many times it was invoked. -/
def ensure_images_downloaded (download : Str → Str → List Str)
    (st : DirState) (start_d end_d : CalendarDate) : DirState × Nat :=
  let st1 : DirState := ⟨true, if st.dirExists then st.files else []⟩
  let hasAny := st1.files.any isJpgName
  if hasAny then (st1, 0)
  else (⟨true, download (isoformatDate start_d) (isoformatDate end_d)⟩, 1)

/-! ## Output formatting: `f"{x:.6f}"` on the `ℚ` model of floats -/

/-- Round to the nearest integer, ties to even — the rounding `%.6f`
performs on the (exactly represented) value. -/
def roundHalfEven (x : ℚ) : ℤ :=
  let f := Int.floor x
  let r := x - f
  if r < 1 / 2 then f
  else if 1 / 2 < r then f + 1
  else if Even f then f else f + 1

/-- The six digits after the decimal point, zero-padded: the base-10 digits
of `m % 10^6` at fixed width 6. -/
def pad6frac (m : Nat) : Str :=
  [Nat.digitChar (m / 100000 % 10), Nat.digitChar (m / 10000 % 10),
   Nat.digitChar (m / 1000 % 10), Nat.digitChar (m / 100 % 10),
   Nat.digitChar (m / 10 % 10), Nat.digitChar (m % 10)]

/-- Model of the formatting `f"{x:.6f}"`: sign, integer digits, a dot, exactly six fractional
digits of the value rounded to six decimal places. -/
def fmt6 (x : ℚ) : Str :=
  let n := (roundHalfEven (|x| * 1000000)).toNat
  (if x < 0 then ['-'] else []) ++ natDigits (n / 1000000) ++
    '.' :: pad6frac (n % 1000000)

/-- The `fmt` helper of `main` (lines 129–130): blank for an absent cover
value, fixed six-decimal formatting otherwise. -/
def fmt (x : Option ℚ) : Str :=
  match x with
  | none => []
  | some v => fmt6 v

/-! ## The record merger: the row loop of `main` (lines 102–132) -/

/-- The constant `SKY_IMAGE_DIR` (line 10). -/
def SKY_IMAGE_DIR : Str := "sky_camera_images".data

/-- The metadata first-cell label set of line 107. -/
def metaLabels : List Str := ["variable".data, "unit".data, "level".data]

/-- The three appended header labels of line 108. -/
def newLabels : List Str :=
  ["cloud_cover_t".data, "cloud_cover_t+5m".data, "cloud_cover_t+10m".data]

/-- The allow-set of observation times `times` (line 87). -/
def allowTimes : List Str :=
  ["0900".data, "1000".data, "1100".data, "1200".data, "1300".data,
   "1400".data, "1500".data]

/-- Model of `os.path.join(a, b)` on POSIX for the arguments this script builds
(`a` nonempty without trailing separator): `b` if `b` is absolute, else
`a + "/" + b`. -/
def path_join (a b : Str) : Str :=
  if b.head? = some '/' then b else a ++ '/' :: b

/-- One iteration of the row loop of `main` (lines 102–132): the rows
written for the row read.  Empty rows are skipped; metadata rows pass
through with the three labels appended; a row whose first cell fails the
parse, or is out of the date range, or out of the time allow-set, writes
nothing; otherwise the three cover cells for offsets 0, 5, 10 minutes are
appended.  `Except.error` models a `datetime` `OverflowError` escaping the
loop (it never fires for rows that pass the time filter). -/
def process_row {E Img RB : Type} (fs : ImageFS E Img RB)
    (dates : List CalendarDate) (row : List Str) :
    Except Unit (List (List Str)) :=
  match row with
  | [] => .ok []
  | first :: rest =>
    if first ∈ metaLabels then .ok [(first :: rest) ++ newLabels]
    else
      match parse_meteoblue_datetime first with
      | none => .ok []
      | some dt =>
        if dt.date ∉ dates then .ok []
        else if strftime dt [.H, .M] ∉ allowTimes then .ok []
        else
          match addMinutes dt 0, addMinutes dt 5, addMinutes dt 10 with
          | some d0, some d5, some d10 =>
            .ok [(first :: rest) ++
              [fmt (cloud_cover_from_file fs
                 (path_join SKY_IMAGE_DIR (sky_image_filename d0))),
               fmt (cloud_cover_from_file fs
                 (path_join SKY_IMAGE_DIR (sky_image_filename d5))),
               fmt (cloud_cover_from_file fs
                 (path_join SKY_IMAGE_DIR (sky_image_filename d10)))]]
          | _, _, _ => .error ()

/-- The whole feed loop: concatenation of the rows written per input row
(an `OverflowError` in any iteration aborts the run). -/
def process_feed {E Img RB : Type} (fs : ImageFS E Img RB)
    (dates : List CalendarDate) (rows : List (List Str)) :
    Except Unit (List (List Str)) :=
  match rows with
  | [] => .ok []
  | row :: rest => do
    let out ← process_row fs dates row
    let outs ← process_feed fs dates rest
    .ok (out ++ outs)

/-- A concrete collaborator instance for exercising the theorems: no path
exists and every pipeline stage fails. -/
def sampleFS : ImageFS Unit Unit Unit :=
  ⟨fun _ => false, fun _ => .error (), fun _ => .error (), fun _ => .error ()⟩

/-- A concrete collaborator instance whose images all exist and process to
the cover value 25/2. -/
def okFS : ImageFS Unit Unit Unit :=
  ⟨fun _ => true, fun _ => .ok (), fun _ => .ok (), fun _ => .ok (25 / 2)⟩

/-! ## Helper lemmas: digits and padded decimal formatting -/

theorem digitVal?_digitChar : ∀ k, k < 10 →
    digitVal? (Nat.digitChar k) = some k := by decide

theorem isDigitChar_digitChar : ∀ k, k < 10 →
    isDigitChar (Nat.digitChar k) = true := by decide

theorem digitChar_props : ∀ k, k < 10 →
    Nat.digitChar k ≠ '_' ∧ Nat.digitChar k ≠ '+' ∧ Nat.digitChar k ≠ '-' ∧
      Nat.digitChar k ≠ '.' ∧ isPySpace (Nat.digitChar k) = false := by decide

theorem digitVal?_some {c : Char} {a : Nat} (h : digitVal? c = some a) :
    Nat.digitChar a = c ∧ a < 10 := by
  unfold digitVal? at h
  split_ifs at h with h0 h1 h2 h3 h4 h5 h6 h7 h8 h9
  · cases h; subst h0; exact ⟨rfl, by omega⟩
  · cases h; subst h1; exact ⟨rfl, by omega⟩
  · cases h; subst h2; exact ⟨rfl, by omega⟩
  · cases h; subst h3; exact ⟨rfl, by omega⟩
  · cases h; subst h4; exact ⟨rfl, by omega⟩
  · cases h; subst h5; exact ⟨rfl, by omega⟩
  · cases h; subst h6; exact ⟨rfl, by omega⟩
  · cases h; subst h7; exact ⟨rfl, by omega⟩
  · cases h; subst h8; exact ⟨rfl, by omega⟩
  · cases h; subst h9; exact ⟨rfl, by omega⟩

theorem isDigitChar_iff {c : Char} :
    isDigitChar c = true ↔ ∃ a, digitVal? c = some a := by
  unfold isDigitChar
  cases h : digitVal? c <;> simp [h]

theorem digit_not_space {c : Char} (h : isDigitChar c = true) :
    isPySpace c = false := by
  obtain ⟨a, ha⟩ := isDigitChar_iff.mp h
  obtain ⟨hc, hlt⟩ := digitVal?_some ha
  exact hc ▸ (digitChar_props a hlt).2.2.2.2

theorem natDigitsGo_lt {f n : Nat} (acc : List Char) (h : n < 10) :
    natDigitsGo (f + 1) n acc = Nat.digitChar n :: acc := by
  simp [natDigitsGo, h]

theorem natDigitsGo_ge {f n : Nat} (acc : List Char) (h : 10 ≤ n) :
    natDigitsGo (f + 1) n acc =
      natDigitsGo f (n / 10) (Nat.digitChar (n % 10) :: acc) := by
  simp only [natDigitsGo]
  rw [if_neg (by omega)]

theorem natDigitsGo_small {f n : Nat} (acc : List Char) (hf : 1 ≤ f)
    (h : n < 10) : natDigitsGo f n acc = Nat.digitChar n :: acc := by
  obtain ⟨g, rfl⟩ : ∃ g, f = g + 1 := ⟨f - 1, by omega⟩
  exact natDigitsGo_lt acc h

theorem natDigitsGo_step {f n : Nat} (acc : List Char) (hf : 1 ≤ f)
    (h : 10 ≤ n) : natDigitsGo f n acc =
      natDigitsGo (f - 1) (n / 10) (Nat.digitChar (n % 10) :: acc) := by
  obtain ⟨g, rfl⟩ : ∃ g, f = g + 1 := ⟨f - 1, by omega⟩
  simpa using natDigitsGo_ge acc h

theorem natDigits_one {n : Nat} (h : n < 10) :
    natDigits n = [Nat.digitChar n] := natDigitsGo_lt [] h

theorem natDigits_two {n : Nat} (h1 : 10 ≤ n) (h2 : n < 100) :
    natDigits n = [Nat.digitChar (n / 10), Nat.digitChar (n % 10)] := by
  unfold natDigits
  rw [natDigitsGo_ge [] h1, natDigitsGo_small _ (by omega) (by omega)]

theorem natDigits_three {n : Nat} (h1 : 100 ≤ n) (h2 : n < 1000) :
    natDigits n = [Nat.digitChar (n / 100), Nat.digitChar (n / 10 % 10),
      Nat.digitChar (n % 10)] := by
  unfold natDigits
  rw [natDigitsGo_ge [] (by omega), natDigitsGo_step _ (by omega) (by omega),
    natDigitsGo_small _ (by omega) (by omega), Nat.div_div_eq_div_mul]

theorem natDigits_four {n : Nat} (h1 : 1000 ≤ n) (h2 : n < 10000) :
    natDigits n = [Nat.digitChar (n / 1000), Nat.digitChar (n / 100 % 10),
      Nat.digitChar (n / 10 % 10), Nat.digitChar (n % 10)] := by
  unfold natDigits
  rw [natDigitsGo_ge [] (by omega), natDigitsGo_step _ (by omega) (by omega),
    natDigitsGo_step _ (by omega) (by omega),
    natDigitsGo_small _ (by omega) (by omega)]
  rw [Nat.div_div_eq_div_mul, Nat.div_div_eq_div_mul, Nat.div_div_eq_div_mul]

theorem pad2_eq {n : Nat} (h : n < 100) :
    pad 2 n = [Nat.digitChar (n / 10), Nat.digitChar (n % 10)] := by
  rcases Nat.lt_or_ge n 10 with h10 | h10
  · unfold pad
    rw [natDigits_one h10]
    have e1 : n / 10 = 0 := by omega
    have e2 : n % 10 = n := by omega
    rw [e1, e2]
    rfl
  · unfold pad
    rw [natDigits_two h10 h]
    simp

theorem pad4_eq {n : Nat} (h : n < 10000) :
    pad 4 n = [Nat.digitChar (n / 1000), Nat.digitChar (n / 100 % 10),
      Nat.digitChar (n / 10 % 10), Nat.digitChar (n % 10)] := by
  rcases Nat.lt_or_ge n 10 with h10 | h10
  · unfold pad
    rw [natDigits_one h10]
    have e1 : n / 1000 = 0 := by omega
    have e2 : n / 100 % 10 = 0 := by omega
    have e3 : n / 10 % 10 = 0 := by omega
    have e4 : n % 10 = n := by omega
    rw [e1, e2, e3, e4]
    rfl
  · rcases Nat.lt_or_ge n 100 with h100 | h100
    · unfold pad
      rw [natDigits_two h10 h100]
      have e1 : n / 1000 = 0 := by omega
      have e2 : n / 100 % 10 = 0 := by omega
      have e3 : n / 10 % 10 = n / 10 := by omega
      rw [e1, e2, e3]
      rfl
    · rcases Nat.lt_or_ge n 1000 with h1000 | h1000
      · unfold pad
        rw [natDigits_three h100 h1000]
        have e1 : n / 1000 = 0 := by omega
        have e2 : n / 100 % 10 = n / 100 := by omega
        rw [e1, e2]
        rfl
      · unfold pad
        rw [natDigits_four h1000 h]
        simp

theorem natDigitsGo_digits : ∀ (f n : Nat) (acc : List Char),
    (∀ c ∈ acc, isDigitChar c = true) →
    ∀ c ∈ natDigitsGo f n acc, isDigitChar c = true := by
  intro f
  induction f with
  | zero => intro n acc hacc; simpa [natDigitsGo] using hacc
  | succ g ih =>
    intro n acc hacc c hc
    by_cases h : n < 10
    · rw [natDigitsGo_lt acc h] at hc
      rcases List.mem_cons.mp hc with hc | hc
      · exact hc ▸ isDigitChar_digitChar n h
      · exact hacc c hc
    · rw [natDigitsGo_ge acc (by omega)] at hc
      refine ih (n / 10) _ ?_ c hc
      intro c' hc'
      rcases List.mem_cons.mp hc' with hc' | hc'
      · exact hc' ▸ isDigitChar_digitChar _ (Nat.mod_lt n (by omega))
      · exact hacc c' hc'

theorem natDigits_digits {n : Nat} : ∀ c ∈ natDigits n, isDigitChar c = true :=
  natDigitsGo_digits (n + 1) n [] (by simp)

/-! ## Helper lemmas: `int()` and the timestamp parser -/

theorem dropWhile_id {l : Str} (h : ∀ c ∈ l, isPySpace c = false) :
    l.dropWhile isPySpace = l := by
  cases l with
  | nil => rfl
  | cons c r =>
    rw [List.dropWhile_cons, h c (List.mem_cons_self c r)]
    simp

theorem pyStrip_id {l : Str} (h : ∀ c ∈ l, isPySpace c = false) :
    pyStrip l = l := by
  unfold pyStrip
  rw [dropWhile_id h, dropWhile_id (by simpa using h), List.reverse_reverse]

theorem digitsTail_all : ∀ l : Str, (∀ c ∈ l, isDigitChar c = true) →
    digitsTail l = true := by
  intro l
  induction l with
  | nil => intro; rfl
  | cons c r ih =>
    intro h
    have hc : isDigitChar c = true := h c (List.mem_cons_self c r)
    unfold digitsTail
    rw [if_neg (fun he => by rw [he] at hc; exact absurd hc (by decide))]
    rw [hc, ih (fun c' hc' => h c' (List.mem_cons_of_mem c hc'))]
    rfl

theorem int_ok_all_digits {l : Str} (hne : l ≠ [])
    (h : ∀ c ∈ l, isDigitChar c = true) : int_ok l = true := by
  obtain ⟨c, r, rfl⟩ : ∃ c r, l = c :: r := by
    cases l with
    | nil => exact absurd rfl hne
    | cons c r => exact ⟨c, r, rfl⟩
  have hc : isDigitChar c = true := h c (List.mem_cons_self c r)
  obtain ⟨a, ha⟩ := isDigitChar_iff.mp hc
  obtain ⟨hca, hlt⟩ := digitVal?_some ha
  have hprops := digitChar_props a hlt
  rw [hca] at hprops
  have hds : dropSign (c :: r) = c :: r := by
    show (if c = '+' ∨ c = '-' then r else c :: r) = c :: r
    rw [if_neg (by push_neg; exact ⟨hprops.2.1, hprops.2.2.1⟩)]
  unfold int_ok
  rw [pyStrip_id (fun c' hc' => digit_not_space (h c' hc')), hds]
  show (if c = '_' then false else isDigitChar c && digitsTail r) = true
  rw [if_neg hprops.1, hc,
    digitsTail_all r (fun c' hc' => h c' (List.mem_cons_of_mem c hc'))]
  rfl

theorem strptime13_some_ranges {t : Str} {dt : CalendarDateTime}
    (h : strptime13 t = some dt) :
    1 ≤ dt.year ∧ dt.year ≤ 9999 ∧ 1 ≤ dt.month ∧ dt.month ≤ 12 ∧
      1 ≤ dt.day ∧ dt.day ≤ daysInMonth dt.year dt.month ∧
      dt.hour ≤ 23 ∧ dt.minute ≤ 59 := by
  unfold strptime13 at h
  split at h
  · split at h
    · split at h
      · rename_i a1 a2 a3 a4 b1 b2 c1 c2 e1 e2 f1 f2 ha1 ha2 ha3 ha4 hb1 hb2
          hc1 hc2 he1 he2 hf1 hf2
        split at h
        · rename_i hcond
          cases h
          have := (digitVal?_some ha1).2
          have := (digitVal?_some ha2).2
          have := (digitVal?_some ha3).2
          have := (digitVal?_some ha4).2
          have := (digitVal?_some hb1).2
          have := (digitVal?_some hb2).2
          have := (digitVal?_some hc1).2
          have := (digitVal?_some hc2).2
          have := (digitVal?_some he1).2
          have := (digitVal?_some he2).2
          have := (digitVal?_some hf1).2
          have := (digitVal?_some hf2).2
          refine ⟨hcond.1, ?_, hcond.2.1, hcond.2.2.1, hcond.2.2.2.1,
            hcond.2.2.2.2.1, hcond.2.2.2.2.2.1, hcond.2.2.2.2.2.2⟩
          show a1 * 1000 + a2 * 100 + a3 * 10 + a4 ≤ 9999
          omega
        · exact absurd h (by simp)
      · exact absurd h (by simp)
    · exact absurd h (by simp)
  · exact absurd h (by simp)

theorem strptime13_some_digits {t : Str} {dt : CalendarDateTime}
    (h : strptime13 t = some dt) :
    (t.take 8).all isDigitChar = true := by
  unfold strptime13 at h
  split at h
  · split at h
    · split at h
      · rename_i ha1 ha2 ha3 ha4 hb1 hb2 hc1 hc2 he1 he2 hf1 hf2
        simp only [List.take, List.all_cons, List.all_nil]
        rw [isDigitChar_iff.mpr ⟨_, ha1⟩, isDigitChar_iff.mpr ⟨_, ha2⟩,
          isDigitChar_iff.mpr ⟨_, ha3⟩, isDigitChar_iff.mpr ⟨_, ha4⟩,
          isDigitChar_iff.mpr ⟨_, hb1⟩, isDigitChar_iff.mpr ⟨_, hb2⟩,
          isDigitChar_iff.mpr ⟨_, hc1⟩, isDigitChar_iff.mpr ⟨_, hc2⟩]
        rfl
      · exact absurd h (by simp)
    · exact absurd h (by simp)
  · exact absurd h (by simp)

theorem parse_some_len {s : Str} {dt : CalendarDateTime}
    (h : parse_meteoblue_datetime s = some dt) : 13 ≤ s.length := by
  unfold parse_meteoblue_datetime at h
  split_ifs at h with h1 h2
  push_neg at h1
  exact h1.2

theorem parse_some_strptime {s : Str} {dt : CalendarDateTime}
    (h : parse_meteoblue_datetime s = some dt) :
    strptime13 (s.take 13) = some dt := by
  unfold parse_meteoblue_datetime at h
  split_ifs at h with h1 h2
  exact h

theorem parse_some_ranges {s : Str} {dt : CalendarDateTime}
    (h : parse_meteoblue_datetime s = some dt) :
    1 ≤ dt.year ∧ dt.year ≤ 9999 ∧ 1 ≤ dt.month ∧ dt.month ≤ 12 ∧
      1 ≤ dt.day ∧ dt.day ≤ daysInMonth dt.year dt.month ∧
      dt.hour ≤ 23 ∧ dt.minute ≤ 59 :=
  strptime13_some_ranges (parse_some_strptime h)

theorem parse_some_validDate {s : Str} {dt : CalendarDateTime}
    (h : parse_meteoblue_datetime s = some dt) : validDate dt.date := by
  obtain ⟨h1, h2, h3, h4, h5, h6, -, -⟩ := parse_some_ranges h
  exact ⟨h1, h2, h3, h4, h5, h6⟩

/-! ## Helper lemmas: date order, successor dates, the range loop -/

theorem dateLE_refl (a : CalendarDate) : dateLE a a := by
  unfold dateLE; omega

theorem dateLE_trans {a b c : CalendarDate} (h1 : dateLE a b)
    (h2 : dateLE b c) : dateLE a c := by
  unfold dateLE at *; omega

theorem dateLE_antisymm {a b : CalendarDate} (h1 : dateLE a b)
    (h2 : dateLE b a) : a = b := by
  cases a with
  | mk ay am ad =>
    cases b with
    | mk cy cm cd =>
      unfold dateLE at h1 h2
      dsimp only at h1 h2
      rw [CalendarDate.mk.injEq]
      omega

theorem dateLE_of_dateLT {a b : CalendarDate} (h : dateLT a b) : dateLE a b := by
  unfold dateLE dateLT at *; omega

theorem dateLT_of_dateLE_ne {a b : CalendarDate} (h1 : dateLE a b)
    (h2 : a ≠ b) : dateLT a b := by
  cases a with
  | mk ay am ad =>
    cases b with
    | mk cy cm cd =>
      unfold dateLE at h1
      unfold dateLT
      dsimp only at *
      have : ¬ (ay = cy ∧ am = cm ∧ ad = cd) := by
        intro ⟨e1, e2, e3⟩
        exact h2 (by rw [e1, e2, e3])
      omega

theorem eq_of_dateLE_not_dateLT {a b : CalendarDate} (h1 : dateLE a b)
    (h2 : ¬ dateLT a b) : a = b := by
  by_contra hne
  exact h2 (dateLT_of_dateLE_ne h1 hne)

theorem validDate_le_max {d : CalendarDate} (h : validDate d) :
    dateLE d maxDate := by
  obtain ⟨h1, h2, h3, h4, h5, h6⟩ := h
  have := daysInMonth_le31 d.year d.month
  unfold dateLE maxDate
  dsimp only
  omega

theorem nextDayO_some {d n : CalendarDate} (h : nextDayO d = some n) :
    d ≠ maxDate ∧ n = nextDay d := by
  unfold nextDayO at h
  split_ifs at h with hm
  rw [Option.some.injEq] at h
  exact ⟨hm, h.symm⟩

theorem nextDayO_of_ne {d : CalendarDate} (hm : d ≠ maxDate) :
    nextDayO d = some (nextDay d) := by
  unfold nextDayO
  rw [if_neg hm]

theorem daysInMonth_12 (y : Nat) : daysInMonth y 12 = 31 := by
  unfold daysInMonth; norm_num

theorem nextDay_lt (d : CalendarDate) : dateLT d (nextDay d) := by
  unfold nextDay dateLT
  split_ifs <;> dsimp only <;> omega

theorem nextDay_valid {d : CalendarDate} (hv : validDate d)
    (hm : d ≠ maxDate) : validDate (nextDay d) := by
  obtain ⟨h1, h2, h3, h4, h5, h6⟩ := hv
  have hne : ¬ (d.year = 9999 ∧ d.month = 12 ∧ d.day = 31) := by
    intro ⟨e1, e2, e3⟩
    apply hm
    cases d with
    | mk dy dm dd =>
      dsimp only at e1 e2 e3
      unfold maxDate
      rw [CalendarDate.mk.injEq]
      exact ⟨e1, e2, e3⟩
  unfold nextDay
  split_ifs with ha hb <;> (unfold validDate; dsimp only)
  · omega
  · have hq := daysInMonth_pos d.year (d.month + 1) (by omega) (by omega)
    omega
  · have hq := daysInMonth_pos (d.year + 1) 1 (le_refl 1) (by omega)
    have e : d.month = 12 := by omega
    rw [e, daysInMonth_12 d.year] at ha h6
    omega

theorem nextDay_min {c f : CalendarDate} (hc : validDate c)
    (hf : validDate f) (hlt : dateLT c f) : dateLE (nextDay c) f := by
  obtain ⟨c1, c2, c3, c4, c5, c6⟩ := hc
  obtain ⟨f1, f2, f3, f4, f5, f6⟩ := hf
  unfold dateLT at hlt
  unfold nextDay
  by_cases hsame : c.year = f.year ∧ c.month = f.month
  · rw [← hsame.1, ← hsame.2] at f6
    split_ifs with ha hb <;> (unfold dateLE; dsimp only) <;> omega
  · split_ifs with ha hb <;> (unfold dateLE; dsimp only) <;> omega

theorem rangeDates_stop {cur fin : CalendarDate} (h : ¬ dateLE cur fin) :
    rangeDates cur fin = some [] := by
  unfold rangeDates
  rw [dif_neg h]

theorem rangeDates_overflow {cur fin : CalendarDate} (hle : dateLE cur fin)
    (h : nextDayO cur = none) : rangeDates cur fin = none := by
  unfold rangeDates
  rw [dif_pos hle]
  split
  · rfl
  · rename_i nxt hnxt
    rw [h] at hnxt
    exact absurd hnxt (by simp)

theorem rangeDates_cons {cur fin nxt : CalendarDate} (hle : dateLE cur fin)
    (h : nextDayO cur = some nxt) :
    rangeDates cur fin = (rangeDates nxt fin).map (fun l => cur :: l) := by
  conv_lhs => unfold rangeDates
  rw [dif_pos hle]
  split
  · rename_i hnxt
    rw [h] at hnxt
    exact absurd hnxt (by simp)
  · rename_i nxt' hnxt
    rw [h, Option.some.injEq] at hnxt
    rw [hnxt]

theorem rangeDates_some_spec :
    ∀ (cur fin : CalendarDate), validDate cur → validDate fin →
    ∀ l, rangeDates cur fin = some l →
      (dateLE cur fin → l.head? = some cur ∧ l.getLast? = some fin ∧
        List.Chain' (fun a b => nextDayO a = some b) l) ∧
      (¬ dateLE cur fin → l = []) ∧
      (∀ x, validDate x → (x ∈ l ↔ dateLE cur x ∧ dateLE x fin)) := by
  intro cur fin
  induction cur, fin using rangeDates.induct with
  | case1 cur fin hle hnone =>
    intro hvc hvf l hl
    rw [rangeDates_overflow hle hnone] at hl
    exact absurd hl (by simp)
  | case2 cur fin hle nxt hnext ih =>
    intro hvc hvf l hl
    rw [rangeDates_cons hle hnext] at hl
    obtain ⟨l', hl', rfl⟩ :
        ∃ l', rangeDates nxt fin = some l' ∧ l = cur :: l' := by
      cases hr : rangeDates nxt fin with
      | none => rw [hr] at hl; exact absurd hl (by simp)
      | some l2 =>
        rw [hr] at hl
        simp only [Option.map_some', Option.some.injEq] at hl
        exact ⟨l2, rfl, hl.symm⟩
    obtain ⟨hmax, hnd⟩ := nextDayO_some hnext
    have hvn : validDate nxt := by rw [hnd]; exact nextDay_valid hvc hmax
    have ihs := ih hvn hvf l' hl'
    have hltn : dateLT cur nxt := by rw [hnd]; exact nextDay_lt cur
    by_cases hnf : dateLE nxt fin
    · obtain ⟨hh, hlast, hchain⟩ := ihs.1 hnf
      obtain ⟨a, t, rfl⟩ : ∃ a t, l' = a :: t := by
        cases l' with
        | nil => exact absurd hh (by simp)
        | cons a t => exact ⟨a, t, rfl⟩
      have ha : a = nxt := by
        simp only [List.head?_cons, Option.some.injEq] at hh
        exact hh
      refine ⟨fun _ => ⟨rfl, ?_, ?_⟩, fun hc => absurd hle hc, fun x hx => ?_⟩
      · rw [List.getLast?_cons_cons]
        exact hlast
      · exact List.Chain'.cons (ha ▸ hnext) hchain
      · rw [List.mem_cons, ihs.2.2 x hx]
        constructor
        · rintro (rfl | ⟨h1, h2⟩)
          · exact ⟨dateLE_refl x, hle⟩
          · exact ⟨dateLE_trans (dateLE_of_dateLT hltn) h1, h2⟩
        · rintro ⟨h1, h2⟩
          by_cases hxc : x = cur
          · exact Or.inl hxc
          · refine Or.inr ⟨?_, h2⟩
            have hlt : dateLT cur x :=
              dateLT_of_dateLE_ne h1 (fun he => hxc (he.symm))
            rw [hnd]
            exact nextDay_min hvc hx hlt
    · have hl0 : l' = [] := ihs.2.1 hnf
      subst hl0
      have hnlt : ¬ dateLT cur fin := by
        intro hltf
        apply hnf
        rw [hnd]
        exact nextDay_min hvc hvf hltf
      have hcf : cur = fin := eq_of_dateLE_not_dateLT hle hnlt
      refine ⟨fun _ => ⟨rfl, by rw [← hcf]; rfl, List.chain'_singleton cur⟩,
        fun hc => absurd hle hc, fun x hx => ?_⟩
      simp only [List.mem_singleton]
      constructor
      · rintro rfl
        exact ⟨dateLE_refl x, hle⟩
      · rintro ⟨h1, h2⟩
        rw [← hcf] at h2
        exact (dateLE_antisymm h1 h2).symm
  | case3 cur fin hle =>
    intro hvc hvf l hl
    rw [rangeDates_stop hle, Option.some.injEq] at hl
    subst hl
    refine ⟨fun hc => absurd hc hle, fun _ => rfl, fun x hx => ?_⟩
    simp only [List.not_mem_nil, false_iff]
    rintro ⟨h1, h2⟩
    exact hle (dateLE_trans h1 h2)

theorem rangeDates_total :
    ∀ (cur fin : CalendarDate), validDate cur → validDate fin →
      fin ≠ maxDate → ∃ l, rangeDates cur fin = some l := by
  intro cur fin
  induction cur, fin using rangeDates.induct with
  | case1 cur fin hle hnone =>
    intro hvc hvf hmax
    have hcm : cur = maxDate := by
      unfold nextDayO at hnone
      split_ifs at hnone with h
      exact h
    rw [hcm] at hle
    exact absurd (dateLE_antisymm (validDate_le_max hvf) hle) hmax
  | case2 cur fin hle nxt hnext ih =>
    intro hvc hvf hmax
    obtain ⟨hm, hnd⟩ := nextDayO_some hnext
    have hvn : validDate nxt := by rw [hnd]; exact nextDay_valid hvc hm
    obtain ⟨l', hl'⟩ := ih hvn hvf hmax
    refine ⟨cur :: l', ?_⟩
    rw [rangeDates_cons hle hnext, hl']
    rfl
  | case3 cur fin hle =>
    intro hvc hvf hmax
    exact ⟨[], rangeDates_stop hle⟩

/-! ## Helper lemmas: times, minute offsets, output formatting -/

theorem strftime_HM (dt : CalendarDateTime) :
    strftime dt [FmtDir.H, FmtDir.M] = pad 2 dt.hour ++ pad 2 dt.minute := by
  simp [strftime, fmtField]

set_option maxHeartbeats 2000000 in
theorem allowTimes_iff : ∀ h : Nat, h < 24 → ∀ mi : Nat, mi < 60 →
    ((pad 2 h ++ pad 2 mi) ∈ allowTimes ↔
      (h ∈ ([9, 10, 11, 12, 13, 14, 15] : List Nat) ∧ mi = 0)) := by decide

theorem addMinutes_small {y mo d h mi : Nat} (k : Nat) (hk : mi + k < 60)
    (hh : h < 24) :
    addMinutes ⟨y, mo, d, h, mi⟩ k = some ⟨y, mo, d, h, mi + k⟩ := by
  simp only [addMinutes, CalendarDateTime.date]
  rw [Nat.div_eq_of_lt hk, Nat.mod_eq_of_lt hk]
  simp only [Nat.add_zero]
  rw [Nat.div_eq_of_lt hh, Nat.mod_eq_of_lt hh]
  simp [addDays]

theorem pad6frac_digits (m : Nat) :
    ∀ c ∈ pad6frac m, isDigitChar c = true := by
  intro c hc
  unfold pad6frac at hc
  simp only [List.mem_cons, List.not_mem_nil, or_false] at hc
  rcases hc with rfl | rfl | rfl | rfl | rfl | rfl <;>
    exact isDigitChar_digitChar _ (Nat.mod_lt _ (by omega))

theorem fmt6_shape (v : ℚ) :
    ∃ pre post, fmt6 v = pre ++ '.' :: post ∧ post.length = 6 ∧
      (∀ c ∈ post, isDigitChar c = true) ∧ '.' ∉ pre := by
  refine ⟨(if v < 0 then ['-'] else []) ++
      natDigits ((roundHalfEven (|v| * 1000000)).toNat / 1000000),
    pad6frac ((roundHalfEven (|v| * 1000000)).toNat % 1000000),
    ?_, rfl, pad6frac_digits _, ?_⟩
  · simp only [fmt6, List.append_assoc]
  · intro hdot
    rcases List.mem_append.mp hdot with hd | hd
    · by_cases hv : v < 0
      · rw [if_pos hv] at hd
        simp at hd
      · rw [if_neg hv] at hd
        cases hd
    · exact absurd (natDigits_digits _ hd) (by decide)

theorem parse_not_meta {first : Str} {dt : CalendarDateTime}
    (h : parse_meteoblue_datetime first = some dt) : first ∉ metaLabels := by
  intro hm
  have hlen := parse_some_len h
  unfold metaLabels at hm
  rcases List.mem_cons.mp hm with rfl | hm
  · simp at hlen
  rcases List.mem_cons.mp hm with rfl | hm
  · simp at hlen
  rcases List.mem_cons.mp hm with rfl | hm
  · simp at hlen
  · cases hm

/-! ## Claim theorems -/

/-- C4 counterexample: at year 999 the platform `%Y` drops the zero
padding, so the Artifact Locator does not produce the zero-padded
`YYYY-MM-DD-HH-MM` name: the filename is `999-01-01-09-00-0.jpg`, not the
claimed `0999-01-01-09-00-0.jpg`. -/
theorem c4_counterexample :
    sky_image_filename ⟨999, 1, 1, 9, 0⟩ = "999-01-01-09-00-0.jpg".data ∧
    artifactNameSpec ⟨999, 1, 1, 9, 0⟩ = "0999-01-01-09-00-0.jpg".data ∧
    sky_image_filename ⟨999, 1, 1, 9, 0⟩ ≠
      artifactNameSpec ⟨999, 1, 1, 9, 0⟩ :=
  ⟨by decide, by decide, by decide⟩

/-- C4 (amended): for every `CalendarDateTime` whose year lies in the band
1000–9999, where zero-padding `%Y` is vacuous (a Python datetime year
never exceeds 9999, and every other field is two-digit already), the
Artifact Locator result is exactly the zero-padded hyphen-joined
`YYYY-MM-DD-HH-MM` followed by the literal `-0.jpg`; for every
`CalendarDateTime` whatsoever the result still ends in that fixed suffix,
and the function takes no filesystem argument, so no existence check
occurs.  Below year 1000 the platform `%Y` drops the padding (see the
counterexample). -/
theorem c4_artifact_locator (dt : CalendarDateTime) :
    (1000 ≤ dt.year → dt.year ≤ 9999 →
      sky_image_filename dt = artifactNameSpec dt) ∧
    "-0.jpg".data <:+ sky_image_filename dt := by
  constructor
  · intro h1 h2
    have hp : pad 4 dt.year = natDigits dt.year := by
      unfold pad
      rw [natDigits_four h1 (by omega)]
      rfl
    simp [sky_image_filename, artifactNameSpec, strftime, fmtField, hp]
  · exact ⟨_, rfl⟩

theorem c4_witness :
    1000 ≤ (⟨2019, 5, 23, 9, 0⟩ : CalendarDateTime).year ∧
    (⟨2019, 5, 23, 9, 0⟩ : CalendarDateTime).year ≤ 9999 ∧
    sky_image_filename ⟨2019, 5, 23, 9, 0⟩ =
      artifactNameSpec ⟨2019, 5, 23, 9, 0⟩ ∧
    "-0.jpg".data <:+ sky_image_filename ⟨2019, 5, 23, 9, 0⟩ :=
  ⟨by decide, by decide,
   (c4_artifact_locator ⟨2019, 5, 23, 9, 0⟩).1 (by decide) (by decide),
   (c4_artifact_locator ⟨2019, 5, 23, 9, 0⟩).2⟩

/-- C10: an empty feed row is silently skipped by the Record Merger: no
output row is produced and no error is raised (the first-cell tests are
reached only for nonempty rows). -/
theorem c10_empty_row {E Img RB : Type} (fs : ImageFS E Img RB)
    (dates : List CalendarDate) :
    process_row fs dates [] = Except.ok [] := rfl

/-- C7: a feed row whose first cell is one of the labels `variable`,
`unit`, `level` is written with its cells unchanged plus exactly the three
fixed feature labels, and the result depends on neither the filesystem nor
the date range — no timestamp parsing, artifact lookup or feature
computation is involved. -/
theorem c7_metadata_row {E Img RB : Type} (fs : ImageFS E Img RB)
    (dates : List CalendarDate) (first : Str) (rest : List Str)
    (hm : first ∈ metaLabels) :
    process_row fs dates (first :: rest) =
      Except.ok [(first :: rest) ++ newLabels] := by
  simp only [process_row]
  rw [if_pos hm]

theorem c7_witness :
    "variable".data ∈ metaLabels ∧
    process_row sampleFS [] ["variable".data, "x".data] =
      Except.ok [["variable".data, "x".data] ++ newLabels] :=
  ⟨by decide, c7_metadata_row sampleFS [] "variable".data ["x".data]
    (by decide)⟩

/-- C2: the Feature Computer returns an optional value: for a missing path
the result is absent whatever the pipeline stages would do (they are not
invoked), and an exception in any stage (load-and-trim, channel ratio,
cover percentage) is caught and converted to an absent result, never
propagated. -/
theorem c2_feature_computer {E Img RB : Type} (fs : ImageFS E Img RB)
    (path : Str) :
    (fs.pathExists path = false →
      ∀ (lt : Str → Except E Img) (pr : Img → Except E RB)
        (cc : RB → Except E ℚ),
        cloud_cover_from_file ⟨fs.pathExists, lt, pr, cc⟩ path = none) ∧
    (∀ e, fs.load_and_trim path = .error e →
      cloud_cover_from_file fs path = none) ∧
    (∀ t e, fs.load_and_trim path = .ok t →
      fs.process_image_rb t = .error e →
      cloud_cover_from_file fs path = none) ∧
    (∀ t rb e, fs.load_and_trim path = .ok t →
      fs.process_image_rb t = .ok rb →
      fs.calculate_cloud_cover rb = .error e →
      cloud_cover_from_file fs path = none) := by
  refine ⟨?_, ?_, ?_, ?_⟩
  · intro hex lt pr cc
    simp [cloud_cover_from_file, hex]
  · intro e he
    by_cases hex : fs.pathExists path <;>
      simp [cloud_cover_from_file, hex, he]
  · intro t e ht he
    by_cases hex : fs.pathExists path <;>
      simp [cloud_cover_from_file, hex, ht, he]
  · intro t rb e ht hrb he
    by_cases hex : fs.pathExists path <;>
      simp [cloud_cover_from_file, hex, ht, hrb, he]

theorem c2_witness :
    sampleFS.pathExists [] = false ∧
    cloud_cover_from_file
      ⟨sampleFS.pathExists, sampleFS.load_and_trim, sampleFS.process_image_rb,
        sampleFS.calculate_cloud_cover⟩ [] = none ∧
    okFS.load_and_trim [] = .ok () ∧ okFS.process_image_rb () = .ok () ∧
    cloud_cover_from_file
      ⟨okFS.pathExists, okFS.load_and_trim, okFS.process_image_rb,
        fun _ => .error ()⟩ [] = none :=
  ⟨rfl,
   (c2_feature_computer sampleFS []).1 rfl _ _ _,
   rfl, rfl,
   (c2_feature_computer
      ⟨okFS.pathExists, okFS.load_and_trim, okFS.process_image_rb,
        fun _ => .error ()⟩ []).2.2.2 () () () rfl rfl rfl⟩

/-- C8: whenever the image directory's listing already contains a name
ending in `.jpg` (case-insensitively), the Acquisition Trigger makes no
collaborator call; consequently a second run after a first run that
populated the directory makes zero calls; and the trigger always leaves
the directory existing. -/
theorem c8_acquisition_trigger (download : Str → Str → List Str)
    (st : DirState) (sd ed : CalendarDate) :
    (ensure_images_downloaded download st sd ed).1.dirExists = true ∧
    (st.dirExists = true → st.files.any isJpgName = true →
      (ensure_images_downloaded download st sd ed).2 = 0) ∧
    ((ensure_images_downloaded download st sd ed).1.files.any isJpgName =
        true →
      (ensure_images_downloaded download
        (ensure_images_downloaded download st sd ed).1 sd ed).2 = 0) := by
  have hfst : ∀ (st' : DirState), st'.dirExists = true →
      st'.files.any isJpgName = true →
      (ensure_images_downloaded download st' sd ed).2 = 0 := by
    intro st' hdir hany
    simp [ensure_images_downloaded, hdir, hany]
  refine ⟨?_, hfst st, ?_⟩
  · simp only [ensure_images_downloaded]
    split_ifs <;> rfl
  · intro hpop
    refine hfst _ ?_ hpop
    simp only [ensure_images_downloaded]
    split_ifs <;> rfl

theorem c8_witness :
    (⟨true, ["A.JPG".data]⟩ : DirState).dirExists = true ∧
    (⟨true, ["A.JPG".data]⟩ : DirState).files.any isJpgName = true ∧
    (ensure_images_downloaded (fun _ _ => []) ⟨true, ["A.JPG".data]⟩
      ⟨2019, 5, 23⟩ ⟨2019, 5, 23⟩).2 = 0 :=
  ⟨rfl, by decide,
   (c8_acquisition_trigger (fun _ _ => []) ⟨true, ["A.JPG".data]⟩
      ⟨2019, 5, 23⟩ ⟨2019, 5, 23⟩).2.1 rfl (by decide)⟩

/-- C6: the Timestamp Parser returns absent whenever the input is shorter
than 13 characters, or its first 8 characters are not all decimal digits,
or the strict parse of its first 13 characters as `YYYYMMDDTHHMM` fails;
it is a total function into `Option`, so no input raises. -/
theorem c6_parser_rejects (s : Str) :
    (s.length < 13 → parse_meteoblue_datetime s = none) ∧
    ((s.take 8).all isDigitChar = false → parse_meteoblue_datetime s = none) ∧
    (strptime13 (s.take 13) = none → parse_meteoblue_datetime s = none) := by
  refine ⟨?_, ?_, ?_⟩
  · intro hlen
    unfold parse_meteoblue_datetime
    rw [if_pos (Or.inr hlen)]
  · intro hdig
    unfold parse_meteoblue_datetime
    split_ifs with h1 h2
    · rfl
    · cases hst : strptime13 (s.take 13) with
      | none => rfl
      | some dt =>
        have hall := strptime13_some_digits hst
        rw [List.take_take] at hall
        have hmin : min 8 13 = 8 := by norm_num
        rw [hmin] at hall
        rw [hall] at hdig
        cases hdig
    · rfl
  · intro hst
    unfold parse_meteoblue_datetime
    split_ifs with h1 h2
    · rfl
    · exact hst
    · rfl

theorem c6_witness :
    ("ab".data.length < 13 ∧ parse_meteoblue_datetime ("ab".data) = none) ∧
    (("2019052xT0900".data.take 8).all isDigitChar = false ∧
      parse_meteoblue_datetime ("2019052xT0900".data) = none) ∧
    (strptime13 ("20191323T0900".data.take 13) = none ∧
      parse_meteoblue_datetime ("20191323T0900".data) = none) :=
  ⟨⟨by decide, (c6_parser_rejects ("ab".data)).1 (by decide)⟩,
   ⟨by decide, (c6_parser_rejects ("2019052xT0900".data)).2.1 (by decide)⟩,
   ⟨by decide, (c6_parser_rejects ("20191323T0900".data)).2.2 (by decide)⟩⟩

/-- C5 counterexample: `"09990523T0900"` matches the encoding for the
valid instant 0999-05-23 09:00 and parses to it, but reformatting with
the same directives yields the 12-character `"9990523T0900"` — the
platform `%Y` drops the zero padding — which differs from the original 13
characters and itself no longer parses: the round-trip fails below year
1000. -/
theorem c5_counterexample :
    parse_meteoblue_datetime ("09990523T0900".data) =
      some ⟨999, 5, 23, 9, 0⟩ ∧
    strftime ⟨999, 5, 23, 9, 0⟩ [.Y, .m, .d, .lit 'T', .H, .M] =
      "9990523T0900".data ∧
    strftime ⟨999, 5, 23, 9, 0⟩ [.Y, .m, .d, .lit 'T', .H, .M] ≠
      ("09990523T0900".data).take 13 ∧
    parse_meteoblue_datetime
      (strftime ⟨999, 5, 23, 9, 0⟩ [.Y, .m, .d, .lit 'T', .H, .M]) = none :=
  ⟨by decide, by decide, by decide, by decide⟩

/-- C5 (amended): a string of length ≥ 13 whose first 13 characters encode
`YYYYMMDDTHHMM` for a valid calendar instant parses to exactly that
instant — whatever the characters beyond the 13th are — and, when the
year is at least 1000, reformatting the parsed value with the same
directives reproduces those 13 characters.  Below year 1000 the platform
`%Y` drops the zero padding and the reformatted string is no longer the
original encoding (see the counterexample). -/
theorem c5_parser_roundtrip (y mo d h mi : Nat) (rest : Str)
    (hv : 1 ≤ y ∧ y ≤ 9999 ∧ 1 ≤ mo ∧ mo ≤ 12 ∧ 1 ≤ d ∧
      d ≤ daysInMonth y mo ∧ h ≤ 23 ∧ mi ≤ 59) :
    parse_meteoblue_datetime
        (pad 4 y ++ (pad 2 mo ++ (pad 2 d ++
          ('T' :: (pad 2 h ++ (pad 2 mi ++ rest)))))) =
      some ⟨y, mo, d, h, mi⟩ ∧
    (1000 ≤ y →
      strftime ⟨y, mo, d, h, mi⟩ [.Y, .m, .d, .lit 'T', .H, .M] =
        (pad 4 y ++ (pad 2 mo ++ (pad 2 d ++
          ('T' :: (pad 2 h ++ (pad 2 mi ++ rest)))))).take 13) := by
  obtain ⟨hv1, hv2, hv3, hv4, hv5, hv6, hv7, hv8⟩ := hv
  have hd31 := daysInMonth_le31 y mo
  rw [pad4_eq (show y < 10000 by omega), pad2_eq (show mo < 100 by omega),
    pad2_eq (show d < 100 by omega), pad2_eq (show h < 100 by omega),
    pad2_eq (show mi < 100 by omega)]
  simp only [List.cons_append, List.nil_append]
  constructor
  · unfold parse_meteoblue_datetime
    rw [if_neg (by simp)]
    have hrep : represents_int
        ((Nat.digitChar (y / 1000) :: Nat.digitChar (y / 100 % 10) ::
          Nat.digitChar (y / 10 % 10) :: Nat.digitChar (y % 10) ::
          Nat.digitChar (mo / 10) :: Nat.digitChar (mo % 10) ::
          Nat.digitChar (d / 10) :: Nat.digitChar (d % 10) ::
          'T' :: Nat.digitChar (h / 10) :: Nat.digitChar (h % 10) ::
          Nat.digitChar (mi / 10) :: Nat.digitChar (mi % 10) :: rest).take 8) =
        true := by
      apply int_ok_all_digits (by simp)
      intro c hc
      simp only [List.take_succ_cons, List.take_zero, List.mem_cons,
        List.not_mem_nil, or_false] at hc
      rcases hc with rfl | rfl | rfl | rfl | rfl | rfl | rfl | rfl <;>
        exact isDigitChar_digitChar _ (by omega)
    rw [if_neg (not_not_intro hrep)]
    show strptime13 [Nat.digitChar (y / 1000), Nat.digitChar (y / 100 % 10),
      Nat.digitChar (y / 10 % 10), Nat.digitChar (y % 10),
      Nat.digitChar (mo / 10), Nat.digitChar (mo % 10),
      Nat.digitChar (d / 10), Nat.digitChar (d % 10), 'T',
      Nat.digitChar (h / 10), Nat.digitChar (h % 10),
      Nat.digitChar (mi / 10), Nat.digitChar (mi % 10)] =
        some ⟨y, mo, d, h, mi⟩
    simp only [strptime13, true_or, if_true]
    rw [digitVal?_digitChar (y / 1000) (by omega),
      digitVal?_digitChar (y / 100 % 10) (by omega),
      digitVal?_digitChar (y / 10 % 10) (by omega),
      digitVal?_digitChar (y % 10) (by omega),
      digitVal?_digitChar (mo / 10) (by omega),
      digitVal?_digitChar (mo % 10) (by omega),
      digitVal?_digitChar (d / 10) (by omega),
      digitVal?_digitChar (d % 10) (by omega),
      digitVal?_digitChar (h / 10) (by omega),
      digitVal?_digitChar (h % 10) (by omega),
      digitVal?_digitChar (mi / 10) (by omega),
      digitVal?_digitChar (mi % 10) (by omega)]
    have ey : y / 1000 * 1000 + y / 100 % 10 * 100 + y / 10 % 10 * 10 +
        y % 10 = y := by omega
    have emo : mo / 10 * 10 + mo % 10 = mo := by omega
    have ed : d / 10 * 10 + d % 10 = d := by omega
    have eh : h / 10 * 10 + h % 10 = h := by omega
    have emi : mi / 10 * 10 + mi % 10 = mi := by omega
    show (if 1 ≤ y / 1000 * 1000 + y / 100 % 10 * 100 + y / 10 % 10 * 10 +
        y % 10 ∧ 1 ≤ mo / 10 * 10 + mo % 10 ∧ mo / 10 * 10 + mo % 10 ≤ 12 ∧
        1 ≤ d / 10 * 10 + d % 10 ∧ d / 10 * 10 + d % 10 ≤
          daysInMonth (y / 1000 * 1000 + y / 100 % 10 * 100 +
            y / 10 % 10 * 10 + y % 10) (mo / 10 * 10 + mo % 10) ∧
        h / 10 * 10 + h % 10 ≤ 23 ∧ mi / 10 * 10 + mi % 10 ≤ 59 then
      some (⟨y / 1000 * 1000 + y / 100 % 10 * 100 + y / 10 % 10 * 10 + y % 10,
        mo / 10 * 10 + mo % 10, d / 10 * 10 + d % 10, h / 10 * 10 + h % 10,
        mi / 10 * 10 + mi % 10⟩ : CalendarDateTime)
      else none) = some (⟨y, mo, d, h, mi⟩ : CalendarDateTime)
    rw [ey, emo, ed, eh, emi]
    rw [if_pos ⟨hv1, hv3, hv4, hv5, hv6, hv7, hv8⟩]
  · intro hy
    simp only [strftime, fmtField, List.map_cons, List.map_nil]
    rw [natDigits_four hy (by omega), pad2_eq (show mo < 100 by omega),
      pad2_eq (show d < 100 by omega), pad2_eq (show h < 100 by omega),
      pad2_eq (show mi < 100 by omega)]
    rfl

theorem c5_witness :
    (1 ≤ 2019 ∧ 2019 ≤ 9999 ∧ 1 ≤ 5 ∧ 5 ≤ 12 ∧ 1 ≤ 23 ∧
      23 ≤ daysInMonth 2019 5 ∧ 9 ≤ 23 ∧ 0 ≤ 59) ∧ 1000 ≤ 2019 ∧
    parse_meteoblue_datetime
        (pad 4 2019 ++ (pad 2 5 ++ (pad 2 23 ++
          ('T' :: (pad 2 9 ++ (pad 2 0 ++ "xy".data)))))) =
      some ⟨2019, 5, 23, 9, 0⟩ ∧
    strftime ⟨2019, 5, 23, 9, 0⟩ [.Y, .m, .d, .lit 'T', .H, .M] =
      (pad 4 2019 ++ (pad 2 5 ++ (pad 2 23 ++
        ('T' :: (pad 2 9 ++ (pad 2 0 ++ "xy".data)))))).take 13 := by
  have h := c5_parser_roundtrip 2019 5 23 9 0 ("xy".data) (by decide)
  exact ⟨by decide, by decide, h.1, h.2 (by decide)⟩

/-- C9 counterexample: at start = end = 9999-12-31 — a pair of valid
calendar dates with start ≤ end — the loop's final `+= timedelta(days=1)`
overflows `date.max` and the expander raises instead of producing the
one-element sequence. -/
theorem c9_counterexample :
    validDate ⟨9999, 12, 31⟩ ∧ dateLE ⟨9999, 12, 31⟩ ⟨9999, 12, 31⟩ ∧
    rangeDates ⟨9999, 12, 31⟩ ⟨9999, 12, 31⟩ = none :=
  ⟨by decide, by decide, rangeDates_overflow (by decide) (by decide)⟩

/-- C9 (amended): for valid dates with start ≤ end and end strictly before
the maximal representable date 9999-12-31, the expander returns exactly the
ordered inclusive day-by-day sequence from start to end (first element
start, last element end, each successor one day after its predecessor, and
containing exactly the dates between them); for start > end it terminates
with the empty sequence.  At end = 9999-12-31 the increment overflows
instead (see the counterexample). -/
theorem c9_range_expander (s f : CalendarDate) (hs : validDate s)
    (hf : validDate f) (hmax : f ≠ maxDate) :
    (dateLE s f → ∃ l, rangeDates s f = some l ∧ l ≠ [] ∧
      l.head? = some s ∧ l.getLast? = some f ∧
      List.Chain' (fun a b => nextDayO a = some b) l ∧
      (∀ x, validDate x → (x ∈ l ↔ dateLE s x ∧ dateLE x f))) ∧
    (¬ dateLE s f → rangeDates s f = some []) := by
  constructor
  · intro hle
    obtain ⟨l, hl⟩ := rangeDates_total s f hs hf hmax
    have hspec := rangeDates_some_spec s f hs hf l hl
    obtain ⟨hh, hlast, hchain⟩ := hspec.1 hle
    refine ⟨l, hl, ?_, hh, hlast, hchain, hspec.2.2⟩
    intro h0
    rw [h0] at hh
    cases hh
  · exact rangeDates_stop

theorem c9_range_expander_witness :
    validDate ⟨2019, 5, 23⟩ ∧ validDate ⟨2019, 5, 24⟩ ∧
    (⟨2019, 5, 24⟩ : CalendarDate) ≠ maxDate ∧
    dateLE ⟨2019, 5, 23⟩ ⟨2019, 5, 24⟩ ∧
    (∃ l, rangeDates ⟨2019, 5, 23⟩ ⟨2019, 5, 24⟩ = some l ∧ l ≠ [] ∧
      l.head? = some ⟨2019, 5, 23⟩ ∧ l.getLast? = some ⟨2019, 5, 24⟩ ∧
      List.Chain' (fun a b => nextDayO a = some b) l ∧
      (∀ x, validDate x →
        (x ∈ l ↔ dateLE ⟨2019, 5, 23⟩ x ∧ dateLE x ⟨2019, 5, 24⟩))) :=
  ⟨by decide, by decide, by decide, by decide,
   (c9_range_expander ⟨2019, 5, 23⟩ ⟨2019, 5, 24⟩ (by decide) (by decide)
     (by decide)).1 (by decide)⟩

/-- C1: a data row whose first cell parses to a timestamp with date inside
the inclusive [start, end] range and time-of-day in the allow-set is
written exactly once: the original cells unchanged, followed by exactly
three cells for minute offsets 0, 5, 10 added to the parsed timestamp,
each being the formatted Feature Computer result for the image directory
joined with the Artifact Locator filename at that offset — the empty
string when the result is absent, a decimal string with exactly six
fractional digits otherwise. -/
theorem c1_in_range_row {E Img RB : Type} (fs : ImageFS E Img RB)
    (s f : CalendarDate) (dates : List CalendarDate)
    (hs : validDate s) (hf : validDate f)
    (hr : rangeDates s f = some dates)
    (first : Str) (rest : List Str) (dt : CalendarDateTime)
    (hp : parse_meteoblue_datetime first = some dt)
    (hd1 : dateLE s dt.date) (hd2 : dateLE dt.date f)
    (hhr : dt.hour ∈ ([9, 10, 11, 12, 13, 14, 15] : List Nat))
    (hmin : dt.minute = 0) :
    (addMinutes dt 0 = some ⟨dt.year, dt.month, dt.day, dt.hour, 0⟩ ∧
     addMinutes dt 5 = some ⟨dt.year, dt.month, dt.day, dt.hour, 5⟩ ∧
     addMinutes dt 10 = some ⟨dt.year, dt.month, dt.day, dt.hour, 10⟩) ∧
    process_row fs dates (first :: rest) =
      Except.ok [(first :: rest) ++
        [fmt (cloud_cover_from_file fs (path_join SKY_IMAGE_DIR
           (sky_image_filename ⟨dt.year, dt.month, dt.day, dt.hour, 0⟩))),
         fmt (cloud_cover_from_file fs (path_join SKY_IMAGE_DIR
           (sky_image_filename ⟨dt.year, dt.month, dt.day, dt.hour, 5⟩))),
         fmt (cloud_cover_from_file fs (path_join SKY_IMAGE_DIR
           (sky_image_filename ⟨dt.year, dt.month, dt.day, dt.hour, 10⟩)))]] ∧
    fmt none = [] ∧
    (∀ v : ℚ, ∃ pre post, fmt (some v) = pre ++ '.' :: post ∧
      post.length = 6 ∧ (∀ c ∈ post, isDigitChar c = true) ∧ '.' ∉ pre) := by
  obtain ⟨r1, r2, r3, r4, r5, r6, r7, r8⟩ := parse_some_ranges hp
  have hadd : ∀ k : Nat, k < 60 →
      addMinutes dt k = some ⟨dt.year, dt.month, dt.day, dt.hour, k⟩ := by
    intro k hk
    obtain ⟨y, mo, d, hh, mm⟩ := dt
    dsimp only at hmin r7 ⊢
    subst hmin
    rw [addMinutes_small k (by omega) (by omega)]
    simp
  refine ⟨⟨hadd 0 (by omega), hadd 5 (by omega), hadd 10 (by omega)⟩,
    ?_, rfl, fun v => fmt6_shape v⟩
  have hmem : dt.date ∈ dates :=
    ((rangeDates_some_spec s f hs hf dates hr).2.2 dt.date
      (parse_some_validDate hp)).mpr ⟨hd1, hd2⟩
  have hallow : strftime dt [FmtDir.H, FmtDir.M] ∈ allowTimes := by
    rw [strftime_HM]
    exact (allowTimes_iff dt.hour (by omega) dt.minute (by omega)).mpr
      ⟨hhr, hmin⟩
  simp only [process_row, hp, if_neg (parse_not_meta hp),
    if_neg (not_not_intro hmem), if_neg (not_not_intro hallow),
    hadd 0 (by omega), hadd 5 (by omega), hadd 10 (by omega)]

theorem c1_witness :
    validDate ⟨2019, 5, 23⟩ ∧
    rangeDates ⟨2019, 5, 23⟩ ⟨2019, 5, 23⟩ = some [⟨2019, 5, 23⟩] ∧
    parse_meteoblue_datetime ("20190523t0900".data) =
      some ⟨2019, 5, 23, 9, 0⟩ ∧
    process_row sampleFS [⟨2019, 5, 23⟩]
        ["20190523t0900".data, "1.5".data] =
      Except.ok [["20190523t0900".data, "1.5".data] ++
        [fmt (cloud_cover_from_file sampleFS (path_join SKY_IMAGE_DIR
           (sky_image_filename ⟨2019, 5, 23, 9, 0⟩))),
         fmt (cloud_cover_from_file sampleFS (path_join SKY_IMAGE_DIR
           (sky_image_filename ⟨2019, 5, 23, 9, 5⟩))),
         fmt (cloud_cover_from_file sampleFS (path_join SKY_IMAGE_DIR
           (sky_image_filename ⟨2019, 5, 23, 9, 10⟩)))]] := by
  have hr : rangeDates ⟨2019, 5, 23⟩ ⟨2019, 5, 23⟩ = some [⟨2019, 5, 23⟩] := by
    rw [rangeDates_cons (show dateLE ⟨2019, 5, 23⟩ ⟨2019, 5, 23⟩ by decide)
      (show nextDayO ⟨2019, 5, 23⟩ = some ⟨2019, 5, 24⟩ by decide),
      rangeDates_stop (show ¬ dateLE ⟨2019, 5, 24⟩ ⟨2019, 5, 23⟩ by decide)]
    rfl
  have h := c1_in_range_row sampleFS ⟨2019, 5, 23⟩ ⟨2019, 5, 23⟩
    [⟨2019, 5, 23⟩] (by decide) (by decide) hr ("20190523t0900".data)
    ["1.5".data] ⟨2019, 5, 23, 9, 0⟩ (by decide) (by decide) (by decide)
    (by decide) rfl
  exact ⟨by decide, hr, by decide, h.2.1⟩

/-- C3: a non-metadata feed row whose first cell fails the Timestamp
Parser, or parses outside the inclusive [start, end] date range, or to a
time-of-day not in the allow-set, is dropped entirely: the Record Merger
writes nothing for it (and raises nothing). -/
theorem c3_dropped_rows {E Img RB : Type} (fs : ImageFS E Img RB)
    (s f : CalendarDate) (dates : List CalendarDate)
    (hs : validDate s) (hf : validDate f)
    (hr : rangeDates s f = some dates)
    (first : Str) (rest : List Str)
    (hmeta : first ∉ metaLabels)
    (hcase : parse_meteoblue_datetime first = none ∨
      (∃ dt, parse_meteoblue_datetime first = some dt ∧
        (¬ (dateLE s dt.date ∧ dateLE dt.date f) ∨
          ¬ (dt.hour ∈ ([9, 10, 11, 12, 13, 14, 15] : List Nat) ∧
            dt.minute = 0)))) :
    process_row fs dates (first :: rest) = Except.ok [] := by
  rcases hcase with hnone | ⟨dt, hp, hbad⟩
  · simp only [process_row, hnone, if_neg hmeta]
  · have hspec := rangeDates_some_spec s f hs hf dates hr
    have hvdt := parse_some_validDate hp
    obtain ⟨r1, r2, r3, r4, r5, r6, r7, r8⟩ := parse_some_ranges hp
    by_cases hmem : dt.date ∈ dates
    · have hdr := (hspec.2.2 dt.date hvdt).mp hmem
      have htbad : ¬ (dt.hour ∈ ([9, 10, 11, 12, 13, 14, 15] : List Nat) ∧
          dt.minute = 0) := by
        rcases hbad with hb | hb
        · exact absurd hdr hb
        · exact hb
      have hnot : strftime dt [FmtDir.H, FmtDir.M] ∉ allowTimes := by
        rw [strftime_HM]
        intro hin
        exact htbad
          ((allowTimes_iff dt.hour (by omega) dt.minute (by omega)).mp hin)
      simp only [process_row, hp, if_neg hmeta,
        if_neg (not_not_intro hmem), if_pos hnot]
    · simp only [process_row, hp, if_neg hmeta, if_pos hmem]

theorem c3_witness :
    "bad".data ∉ metaLabels ∧
    parse_meteoblue_datetime ("bad".data) = none ∧
    process_row sampleFS [⟨2019, 5, 23⟩] ["bad".data, "7".data] =
      Except.ok [] := by
  have hr : rangeDates ⟨2019, 5, 23⟩ ⟨2019, 5, 23⟩ = some [⟨2019, 5, 23⟩] := by
    rw [rangeDates_cons (show dateLE ⟨2019, 5, 23⟩ ⟨2019, 5, 23⟩ by decide)
      (show nextDayO ⟨2019, 5, 23⟩ = some ⟨2019, 5, 24⟩ by decide),
      rangeDates_stop (show ¬ dateLE ⟨2019, 5, 24⟩ ⟨2019, 5, 23⟩ by decide)]
    rfl
  exact ⟨by decide, by decide,
    c3_dropped_rows sampleFS ⟨2019, 5, 23⟩ ⟨2019, 5, 23⟩ [⟨2019, 5, 23⟩]
      (by decide) (by decide) hr ("bad".data) ["7".data] (by decide)
      (Or.inl (by decide))⟩

end CloudPred
